import Mathlib

/-!
Verification development for the crowny-exchange repository.

Shallow embedding of the core data model and operations:
* `src/lib/dex-engine.js` — `LiquidityPool` (constant-product AMM) and `OrderBook`;
* `src/unnamed/part_000` (database layer) — per-`(user, token)` wallet rows and
  the `AutoTradeConfig` rows;
* `src/lib/trade-executor.js` — `TradeExecutor._checkSafety` / `executeOrder`;
* `src/lib/trading-ai.js` — `RiskManager.checkRisk` and the weighted-vote
  consensus of `TradingAI.analyze`;
* `src/lib/gateway.js` — `MetaKernelGateway._checkRateLimit` and the rate gate
  of `route`.

Token amounts and reserves of the DEX engine are modelled as `Nat` (the code
manipulates non-negative integral token units; `Math.floor(a/b)` on
non-negative operands is `Nat` division).  Quantities stored as SQL `REAL`
(wallet balances, order prices, strategy confidences) are modelled as `ℚ`.
Stateful methods become state-passing functions; a thrown JS exception becomes
an `Option`/error result, in which case the caller's state is the unchanged
input state (the JS methods throw before mutating anything).
-/

/-- Pool state, from the `LiquidityPool` constructor (dex-engine.js:32-42).
Display-only fields (`priceHistory`, `tritState`, `createdAt`, `id`,
token symbols) are omitted; `lpHolders` is the total map with default 0,
mirroring `this.lpHolders[provider] || 0`. -/
structure LiquidityPool where
  reserveA : Nat
  reserveB : Nat
  k : Nat
  feeBps : Nat
  totalLpShares : Nat
  lpHolders : String → Nat
  feesCollected : Nat
  volume24h : Nat
  swapCount : Nat

/-- Result fields of a successful swap that the claims mention
(dex-engine.js:89 return value, restricted to `amountIn`, `amountOut`, `fee`;
`impact`, `trit`, `hash` and `ts` are floating-point/clock diagnostics). -/
structure SwapReceipt where
  amountIn : Nat
  amountOut : Nat
  fee : Nat
  deriving DecidableEq

/-- `LiquidityPool.swapAtoB` (dex-engine.js:75-90).  The two `throw`s
(`reserveA === 0 || reserveB === 0` and `amountOut <= 0`) become `none`;
on `none` the pool is unchanged because the JS method throws before the
assignments of line 84. -/
def LiquidityPool.swapAtoB (p : LiquidityPool) (amountIn : Nat) :
    Option (LiquidityPool × SwapReceipt) :=
  if p.reserveA = 0 ∨ p.reserveB = 0 then none else
  let fee := amountIn * p.feeBps / 10000
  let afterFee := amountIn - fee
  let newA := p.reserveA + afterFee
  let newB := p.k / newA
  let amountOut := p.reserveB - newB
  if amountOut = 0 then none else
  some ({ p with
          reserveA := newA, reserveB := newB, k := newA * newB,
          feesCollected := p.feesCollected + fee,
          volume24h := p.volume24h + amountIn,
          swapCount := p.swapCount + 1 },
        ⟨amountIn, amountOut, fee⟩)

/-- `LiquidityPool.swapBtoA` (dex-engine.js:92-107), mirror image of
`swapAtoB`. -/
def LiquidityPool.swapBtoA (p : LiquidityPool) (amountIn : Nat) :
    Option (LiquidityPool × SwapReceipt) :=
  if p.reserveA = 0 ∨ p.reserveB = 0 then none else
  let fee := amountIn * p.feeBps / 10000
  let afterFee := amountIn - fee
  let newB := p.reserveB + afterFee
  let newA := p.k / newB
  let amountOut := p.reserveA - newA
  if amountOut = 0 then none else
  some ({ p with
          reserveA := newA, reserveB := newB, k := newA * newB,
          feesCollected := p.feesCollected + fee,
          volume24h := p.volume24h + amountIn,
          swapCount := p.swapCount + 1 },
        ⟨amountIn, amountOut, fee⟩)

/-- `LiquidityPool.addLiquidity` (dex-engine.js:44-60); returns the updated
pool together with the minted `shares`.  `Math.floor(Math.sqrt(x))` on a
non-negative integer is `Nat.sqrt`. -/
def LiquidityPool.addLiquidity (p : LiquidityPool) (provider : String)
    (amountA amountB : Nat) : LiquidityPool × Nat :=
  let shares :=
    if p.totalLpShares = 0 then Nat.sqrt (amountA * amountB)
    else min (amountA * p.totalLpShares / p.reserveA)
             (amountB * p.totalLpShares / p.reserveB)
  let rA := p.reserveA + amountA
  let rB := p.reserveB + amountB
  ({ p with
     reserveA := rA, reserveB := rB, k := rA * rB,
     totalLpShares := p.totalLpShares + shares,
     lpHolders := fun u => if u = provider then p.lpHolders u + shares
                           else p.lpHolders u },
   shares)

/-- `LiquidityPool.removeLiquidity` (dex-engine.js:62-73); the insufficient
LP-share `throw` becomes `none`; a success returns the updated pool and the
two payout amounts. -/
def LiquidityPool.removeLiquidity (p : LiquidityPool) (provider : String)
    (shares : Nat) : Option (LiquidityPool × Nat × Nat) :=
  let held := p.lpHolders provider
  if held < shares then none else
  let amountA := shares * p.reserveA / p.totalLpShares
  let amountB := shares * p.reserveB / p.totalLpShares
  some ({ p with
          reserveA := p.reserveA - amountA,
          reserveB := p.reserveB - amountB,
          k := (p.reserveA - amountA) * (p.reserveB - amountB),
          totalLpShares := p.totalLpShares - shares,
          lpHolders := fun u => if u = provider then p.lpHolders u - shares
                                else p.lpHolders u },
        amountA, amountB)

/-! ### Order book (dex-engine.js:119-155) -/

/-- Order side; the source uses the strings 'buy' and 'sell'. -/
inductive Side where
  | buy
  | sell
  deriving DecidableEq

/-- Order status; the source uses the strings 'open', 'partial', 'filled'
and 'cancelled' ('open' and 'partial' are Lean keywords, hence `opened`
and `partialFill`). -/
inductive OrderStatus where
  | opened
  | partialFill
  | filled
  | cancelled
  deriving DecidableEq

/-- A resting limit order (dex-engine.js:123).  `id` is the numeric part of
the `ORD-<counter>` string; `trit` and `ts` are omitted.  Prices and amounts
are JS numbers, modelled as `ℚ`. -/
structure Order where
  id : Nat
  owner : String
  poolId : String
  side : Side
  price : ℚ
  amount : ℚ
  filled : ℚ
  status : OrderStatus
  deriving DecidableEq

instance : Inhabited Order := ⟨⟨0, "", "", Side.buy, 0, 0, 0, OrderStatus.opened⟩⟩

/-- The order book: append-only order list plus the id counter
(dex-engine.js:120). -/
structure OrderBook where
  orders : List Order
  counter : Nat

/-- `OrderBook.place` (dex-engine.js:122-126). -/
def OrderBook.place (ob : OrderBook) (owner poolId : String) (side : Side)
    (price amount : ℚ) : OrderBook × Order :=
  let o : Order := ⟨ob.counter, owner, poolId, side, price, amount, 0,
                    OrderStatus.opened⟩
  (⟨ob.orders ++ [o], ob.counter + 1⟩, o)

/-- Stable insertion into a sorted list; used to model
`Array.prototype.sort` with a numeric comparator (a stable comparison
sort). -/
def insertSorted (le : α → α → Bool) (a : α) : List α → List α
  | [] => [a]
  | b :: bs => if le a b then a :: b :: bs else b :: insertSorted le a bs

/-- Stable comparison sort modelling `Array.prototype.sort`. -/
def sortBy (le : α → α → Bool) : List α → List α
  | [] => []
  | a :: as => insertSorted le a (sortBy le as)

/-- One entry of the match list returned by `OrderBook.match`
(dex-engine.js:141). -/
structure MatchRec where
  buyId : Nat
  sellId : Nat
  fill : ℚ
  price : ℚ
  deriving DecidableEq

/-- The body of the inner matching loop (dex-engine.js:133-144) acting on
the order store at buy index `bi` and sell index `si`.  The JS loop mutates
the two orders through references into `this.orders`; here the store is
threaded explicitly and the two indices are updated in place. -/
def fillPair (st : List Order × List MatchRec) (bi si : Nat) :
    List Order × List MatchRec :=
  let os := st.1
  let buy := os.getD bi default
  let sell := os.getD si default
  if sell.price ≤ buy.price then
    let fill := min (buy.amount - buy.filled) (sell.amount - sell.filled)
    if 0 < fill then
      let buy' := { buy with
                    filled := buy.filled + fill,
                    status := if buy.amount ≤ buy.filled + fill
                              then OrderStatus.filled
                              else OrderStatus.partialFill }
      let sell' := { sell with
                     filled := sell.filled + fill,
                     status := if sell.amount ≤ sell.filled + fill
                               then OrderStatus.filled
                               else OrderStatus.partialFill }
      ((os.set bi buy').set si sell', st.2 ++ [⟨buy.id, sell.id, fill, sell.price⟩])
    else st
  else st

/-- Index-selection predicate of the buy filter in `OrderBook.match`
(dex-engine.js:129). -/
def isOpenSide (os : List Order) (poolId : String) (side : Side) (i : Nat) : Bool :=
  let o := os.getD i default
  o.poolId == poolId && o.side == side && o.status == OrderStatus.opened

/-- `OrderBook.match` (dex-engine.js:128-147, named `matchOrders` after the
`CrownyDEX.matchOrders` wrapper because `match` is a Lean keyword).  The two
filters select, at call start, the indices of open buy (resp. sell) orders of
the pool; buys are sorted by price descending, sells ascending; then the
nested loop fills each crossing pair. -/
def OrderBook.matchOrders (ob : OrderBook) (poolId : String) :
    OrderBook × List MatchRec :=
  let buys := sortBy
    (fun i j => decide ((ob.orders.getD j default).price ≤ (ob.orders.getD i default).price))
    ((List.range ob.orders.length).filter (isOpenSide ob.orders poolId Side.buy))
  let sells := sortBy
    (fun i j => decide ((ob.orders.getD i default).price ≤ (ob.orders.getD j default).price))
    ((List.range ob.orders.length).filter (isOpenSide ob.orders poolId Side.sell))
  let res := buys.foldl
    (fun st bi => sells.foldl (fun st2 si => fillPair st2 bi si) st)
    (ob.orders, [])
  ({ ob with orders := res.1 }, res.2)

/-- `OrderBook.cancel` (dex-engine.js:149-152): find the order by id and, if
present, set its status to cancelled — with no guard on the current
status. -/
def OrderBook.cancel (ob : OrderBook) (oid : Nat) : OrderBook :=
  match ob.orders.findIdx? (fun o => o.id == oid) with
  | none => ob
  | some i =>
      { ob with
        orders := ob.orders.set i
          { ob.orders.getD i default with status := OrderStatus.cancelled } }

/-! ### Wallet rows (src/unnamed/part_000, database layer) -/

/-- One `wallets` row for a fixed `(user_id, token)` key: `balance REAL`,
`locked REAL`.  A missing row is `none`. -/
structure Wallet where
  balance : ℚ
  locked : ℚ
  deriving DecidableEq

/-- `CrownyDB.getBalance` (part_000:227-230): row values, or zeros when the
row does not exist. -/
def CrownyDB.getBalance (r : Option Wallet) : Wallet :=
  r.getD ⟨0, 0⟩

/-- `CrownyDB.setBalance` (part_000:239-244): upsert of the `balance`
column; an insert leaves `locked` at its default 0, an update keeps it. -/
def CrownyDB.setBalance (r : Option Wallet) (balance : ℚ) : Option Wallet :=
  match r with
  | none => some ⟨balance, 0⟩
  | some w => some { w with balance := balance }

/-- `CrownyDB.addBalance` (part_000:246-249). -/
def CrownyDB.addBalance (r : Option Wallet) (amount : ℚ) : Option Wallet :=
  CrownyDB.setBalance r ((CrownyDB.getBalance r).balance + amount)

/-- `CrownyDB.subtractBalance` (part_000:251-255): fails when
`balance < amount`; the `locked` column is not consulted. -/
def CrownyDB.subtractBalance (r : Option Wallet) (amount : ℚ) :
    Option (Option Wallet) :=
  if (CrownyDB.getBalance r).balance < amount then none
  else some (CrownyDB.setBalance r ((CrownyDB.getBalance r).balance - amount))

/-- `CrownyDB.lockBalance` (part_000:257-263): fails when
`balance - locked < amount`; otherwise `UPDATE … SET locked = locked + ?`
(a no-op when the row does not exist). -/
def CrownyDB.lockBalance (r : Option Wallet) (amount : ℚ) :
    Option (Option Wallet) :=
  let c := CrownyDB.getBalance r
  if c.balance - c.locked < amount then none
  else some (match r with
    | none => none
    | some w => some { w with locked := w.locked + amount })

/-- `CrownyDB.unlockBalance` (part_000:265-269):
`UPDATE … SET locked = MAX(0, locked - ?)` (a no-op when the row does not
exist). -/
def CrownyDB.unlockBalance (r : Option Wallet) (amount : ℚ) : Option Wallet :=
  match r with
  | none => none
  | some w => some { w with locked := max 0 (w.locked - amount) }

/-- The wallet-entry invariant claimed by the spec:
`available = balance − locked ≥ 0` (reading zeros for a missing row). -/
def CrownyDB.availableNonneg (r : Option Wallet) : Prop :=
  0 ≤ (CrownyDB.getBalance r).balance - (CrownyDB.getBalance r).locked

/-! ### Auto-trade config and trade executor (part_000, trade-executor.js) -/

/-- One `auto_trade_config` row restricted to the columns the safety gate
reads (part_000:163-180); counters are SQL INTEGERs, the position cap a
REAL. -/
structure AutoTradeConfig where
  daily_trades_used : Int
  max_daily_trades : Int
  consecutive_losses : Int
  max_consecutive_losses : Int
  max_position_pct : ℚ
  deriving DecidableEq

/-- The three error classes pushed by `TradeExecutor._checkSafety`
(trade-executor.js:250-265); the interpolated Korean message strings are
abstracted to tags. -/
inductive SafetyError where
  | dailyCap
  | lossCap
  | positionSize
  deriving DecidableEq

/-- The JS idiom `price || 1` (trade-executor.js:262): a nullable price,
with both `null` and `0` replaced by 1. -/
def jsOr1 (price : Option ℚ) : ℚ :=
  match price with
  | some p => if p = 0 then 1 else p
  | none => 1

/-- `TradeExecutor._checkSafety` (trade-executor.js:244-269).  `config` is
the `(userId, exchange)` row (or `none` when absent), `balances` the list of
`balance` column values returned by `getAllBalances`, `price` the nullable
price.  Returns the accumulated error list; the gate is safe iff it is
empty. -/
def TradeExecutor.checkSafety (config : Option AutoTradeConfig)
    (balances : List ℚ) (quantity : ℚ) (price : Option ℚ) : List SafetyError :=
  match config with
  | none => []
  | some c =>
    (if c.max_daily_trades ≤ c.daily_trades_used then [SafetyError.dailyCap] else [])
    ++ (if c.max_consecutive_losses ≤ c.consecutive_losses then [SafetyError.lossCap] else [])
    ++ (let totalValue := balances.foldl (· + ·) 0
        let orderValue := quantity * jsOr1 price
        if 0 < totalValue ∧ c.max_position_pct < orderValue / totalValue
        then [SafetyError.positionSize] else [])

/-- One `exchange_orders` row as inserted by `saveExchangeOrder`
(part_000:321-328), restricted to the inserted fields. -/
structure VenueOrder where
  userId : String
  exchange : String
  symbol : String
  side : String
  kind : String
  price : Option ℚ
  quantity : ℚ
  status : String
  source : String
  deriving DecidableEq

/-- Steps 1-2 of `TradeExecutor.executeOrder` (trade-executor.js:272-283):
run the safety gate; when it trips, throw (`some errors`) before touching
the store; otherwise persist the pending `VenueOrder` row.  The subsequent
venue HTTP call and the success/failure row update (steps 3-5) are external
I/O beyond this embedding.  The first component is the `exchange_orders`
table after the call. -/
def TradeExecutor.executeOrder (orders : List VenueOrder)
    (config : Option AutoTradeConfig) (balances : List ℚ)
    (userId exchange symbol side kind : String) (quantity : ℚ)
    (price : Option ℚ) (source : String) :
    List VenueOrder × Option (List SafetyError) :=
  let errs := TradeExecutor.checkSafety config balances quantity price
  if errs.isEmpty then
    (orders ++ [⟨userId, exchange, symbol, side, kind, price, quantity,
                "pending", source⟩], none)
  else
    (orders, some errs)

/-! ### Risk manager and consensus (trading-ai.js) -/

/-- An open position tracked by the risk manager (trading-ai.js:291). -/
structure Position where
  entryPrice : ℚ
  amount : ℚ
  deriving DecidableEq

/-- `RiskManager` state (trading-ai.js:247-257). -/
structure RiskManager where
  maxPositionSize : ℚ
  maxDrawdown : ℚ
  stopLossPercent : ℚ
  takeProfitPercent : ℚ
  maxDailyTrades : Nat
  dailyTrades : Nat
  peakBalance : ℚ
  positions : List (String × Position)
  deriving DecidableEq

/-- The `RiskManager` built by `new RiskManager({})` — all config defaults
(trading-ai.js:248-256): 10% position size, 15% drawdown, 3% stop, 6% take,
10 daily trades, empty state. -/
def RiskManager.init : RiskManager :=
  ⟨1/10, 15/100, 3/100, 6/100, 10, 0, 0, []⟩

/-- Risk flags produced by `checkRisk` (trading-ai.js:263-281); message
strings abstracted to levels. -/
inductive RiskLevel where
  | block
  | stoploss
  | takeprofit
  deriving DecidableEq

/-- Result of `checkRisk` (trading-ai.js:285). -/
structure RiskCheck where
  allowed : Bool
  risks : List RiskLevel
  maxSize : ℚ
  drawdown : ℚ
  deriving DecidableEq

/-- `RiskManager.checkRisk` (trading-ai.js:259-286).  Mutates `peakBalance`,
so the updated manager is returned alongside the result.  `drawdown` is
`(peak − balance)/peak` with ℚ division (0 when peak is 0, matching the
JS `NaN`-compares-false behaviour for the `>` test). -/
def RiskManager.checkRisk (rm : RiskManager) (symbol : String)
    (price balance : ℚ) : RiskManager × RiskCheck :=
  let risks1 : List RiskLevel :=
    if rm.maxDailyTrades ≤ rm.dailyTrades then [RiskLevel.block] else []
  let peak := if rm.peakBalance < balance then balance else rm.peakBalance
  let drawdown := (peak - balance) / peak
  let risks2 := risks1 ++ (if rm.maxDrawdown < drawdown then [RiskLevel.block] else [])
  let risks3 := risks2 ++ (match rm.positions.lookup symbol with
    | none => []
    | some pos =>
        let pnl := (price - pos.entryPrice) / pos.entryPrice
        (if pnl < -rm.stopLossPercent then [RiskLevel.stoploss] else [])
        ++ (if rm.takeProfitPercent < pnl then [RiskLevel.takeprofit] else []))
  let blocked := risks3.contains RiskLevel.block
  ({ rm with peakBalance := peak },
   ⟨!blocked, risks3, balance * rm.maxPositionSize, drawdown⟩)

/-- One strategy emission as consumed by the weighted vote
(trading-ai.js:323-326): `signal ∈ {-1,0,+1}`, the strategy's fixed
`weight`, and its `confidence`.  The six concrete strategies are
floating-point indicator pipelines; the consensus claims quantify over what
they emit, so `analyze` is parameterised by the emitted list. -/
structure StratResult where
  signal : Int
  weight : ℚ
  confidence : ℚ
  deriving DecidableEq

/-- Final decision of `analyze`; the source uses the strings
'buy', 'hold' and 'sell' with trits 1, 0 and -1. -/
inductive Decision where
  | buy
  | hold
  | sell
  deriving DecidableEq

/-- The output fields of `TradingAI.analyze` relevant to the claims
(trading-ai.js:362-373). -/
structure AnalyzeOutcome where
  decision : Decision
  score : ℚ
  avgConfidence : ℚ
  allowed : Bool
  deriving DecidableEq

/-- `TradingAI.analyze` (trading-ai.js:318-374).  `numCandles` is
`candles.length`; `results` the strategy emissions; `lastClose` the final
candle close used for the risk check; `balance` the (default 100000)
balance argument; `rm` the `riskManager` state.  The short series guard
(line 319-321) returns a hold with zero score; consensus accumulates over
emissions with positive confidence (lines 329-339), decides by the ±0.3
thresholds (lines 342-345), then applies the risk override and the
stop-loss/take-profit forced sell (lines 347-358). -/
def TradingAI.analyze (numCandles : Nat) (results : List StratResult)
    (symbol : String) (lastClose balance : ℚ) (rm : RiskManager) :
    AnalyzeOutcome :=
  if numCandles < 50 then ⟨Decision.hold, 0, 0, true⟩
  else
    let acc := results.foldl
      (fun (a : ℚ × ℚ × ℚ) r =>
        if 0 < r.confidence then
          (a.1 + r.signal * r.weight * r.confidence,
           a.2.1 + r.weight * r.confidence,
           a.2.2 + r.confidence)
        else a)
      (0, 0, 0)
    let avgScore := if 0 < acc.2.1 then acc.1 / acc.2.1 else 0
    let avgConfidence :=
      if 0 < results.length then acc.2.2 / (results.length : ℚ) else 0
    let d0 : Decision :=
      if (3 : ℚ)/10 < avgScore then Decision.buy
      else if avgScore < -((3 : ℚ)/10) then Decision.sell
      else Decision.hold
    let rc := rm.checkRisk symbol lastClose balance
    let d1 := if rc.2.allowed = false ∧ d0 ≠ Decision.hold then Decision.hold else d0
    let d2 := if rc.2.risks.contains RiskLevel.stoploss
                 ∨ rc.2.risks.contains RiskLevel.takeprofit
              then Decision.sell else d1
    ⟨d2, avgScore, avgConfidence, rc.2.allowed⟩

/-! ### Gateway rate limiting (gateway.js:31-34, 50-54, 474-485) -/

/-- `this.RATE_LIMIT = 100` (gateway.js:33). -/
def RATE_LIMIT : Nat := 100

/-- `this.RATE_WINDOW = 60000` ms (gateway.js:34). -/
def RATE_WINDOW : Int := 60000

/-- One entry of the per-principal `rateLimits` map (gateway.js:32). -/
structure RateLimitEntry where
  count : Nat
  resetAt : Int
  deriving DecidableEq

/-- `MetaKernelGateway._checkRateLimit` (gateway.js:474-485) for one
principal: reset the bucket when absent or expired (`now > resetAt`), bump
the counter, admit while `count <= RATE_LIMIT`.  Returns the admission
decision and the stored entry. -/
def MetaKernelGateway.checkRateLimit (now : Int)
    (st : Option RateLimitEntry) : Bool × RateLimitEntry :=
  let limit : RateLimitEntry := match st with
    | some l => if l.resetAt < now then ⟨0, now + RATE_WINDOW⟩ else l
    | none => ⟨0, now + RATE_WINDOW⟩
  let limit' : RateLimitEntry := { limit with count := limit.count + 1 }
  (decide (limit'.count ≤ RATE_LIMIT), limit')

/-- The rate gate at the top of `MetaKernelGateway.route` (gateway.js:50-54):
a failed check throws the `RATE_LIMITED` error before any dispatch; a passing
check continues with the updated bucket. -/
def MetaKernelGateway.routeRateGate (now : Int) (st : Option RateLimitEntry) :
    Except String RateLimitEntry :=
  let r := MetaKernelGateway.checkRateLimit now st
  if r.1 then Except.ok r.2 else Except.error "RATE_LIMITED"

/-- Folds `checkRateLimit` over a sequence of call instants for one
principal, starting from bucket state `st`; returns the admission decision
of each call in order. -/
def MetaKernelGateway.runCalls (st : Option RateLimitEntry) :
    List Int → List Bool × Option RateLimitEntry
  | [] => ([], st)
  | t :: ts =>
      let r := MetaKernelGateway.checkRateLimit t st
      let rest := MetaKernelGateway.runCalls (some r.2) ts
      (r.1 :: rest.1, rest.2)

/-! ### Concrete pool states used by the verification -/

/-- The empty 30-bps pool, as built by `createPool` before any liquidity. -/
def emptyPool : LiquidityPool :=
  ⟨0, 0, 0, 30, 0, fun _ => 0, 0, 0, 0⟩

/-- A small reachable pool state: what `addLiquidity('u', 10, 10)` produces
on a fresh 30-bps pool — reserves (10, 10), `k = 100`, 10 LP shares, all
held by 'u'. -/
def poolTen : LiquidityPool :=
  ⟨10, 10, 100, 30, 10, fun u => if u = "u" then 10 else 0, 0, 0, 0⟩

/-- The pool `poolTen.swapAtoB 10` commits. -/
def poolTenA : LiquidityPool :=
  ⟨20, 5, 100, 30, 10, fun u => if u = "u" then 10 else 0, 0, 10, 1⟩

/-- The pool `poolTenA.swapBtoA 5` commits. -/
def poolTenB : LiquidityPool :=
  ⟨10, 10, 100, 30, 10, fun u => if u = "u" then 10 else 0, 0, 15, 2⟩

/-- The pool `poolTen.swapAtoB 1` commits. -/
def poolTenC : LiquidityPool :=
  ⟨11, 9, 99, 30, 10, fun u => if u = "u" then 10 else 0, 0, 1, 1⟩

/-- The pool `poolTenC.swapBtoA 1` commits. -/
def poolTenD : LiquidityPool :=
  ⟨9, 10, 90, 30, 10, fun u => if u = "u" then 10 else 0, 0, 2, 2⟩

/-! ### Inversion of successful swaps -/

/-- Destructors of a successful `swapAtoB`. -/
theorem swapAtoB_inv {p p' : LiquidityPool} {x : Nat} {r : SwapReceipt}
    (h : p.swapAtoB x = some (p', r)) :
    p.reserveA ≠ 0 ∧ p.reserveB ≠ 0 ∧
    p'.reserveA = p.reserveA + (x - x * p.feeBps / 10000) ∧
    p'.reserveB = p.k / (p.reserveA + (x - x * p.feeBps / 10000)) ∧
    p'.k = p'.reserveA * p'.reserveB ∧
    p'.feeBps = p.feeBps ∧
    r.amountOut = p.reserveB - p'.reserveB ∧
    r.amountOut ≠ 0 := by
  simp only [LiquidityPool.swapAtoB] at h
  split at h
  · exact absurd h (by simp)
  next hg =>
    split at h
    · exact absurd h (by simp)
    next ho =>
      push_neg at hg
      rw [Option.some_inj, Prod.mk.injEq] at h
      obtain ⟨hp, hr⟩ := h
      subst hp
      subst hr
      exact ⟨hg.1, hg.2, rfl, rfl, rfl, rfl, rfl, ho⟩

/-- Destructors of a successful `swapBtoA`. -/
theorem swapBtoA_inv {p p' : LiquidityPool} {x : Nat} {r : SwapReceipt}
    (h : p.swapBtoA x = some (p', r)) :
    p.reserveA ≠ 0 ∧ p.reserveB ≠ 0 ∧
    p'.reserveB = p.reserveB + (x - x * p.feeBps / 10000) ∧
    p'.reserveA = p.k / (p.reserveB + (x - x * p.feeBps / 10000)) ∧
    p'.k = p'.reserveA * p'.reserveB ∧
    p'.feeBps = p.feeBps ∧
    r.amountOut = p.reserveA - p'.reserveA ∧
    r.amountOut ≠ 0 := by
  simp only [LiquidityPool.swapBtoA] at h
  split at h
  · exact absurd h (by simp)
  next hg =>
    split at h
    · exact absurd h (by simp)
    next ho =>
      push_neg at hg
      rw [Option.some_inj, Prod.mk.injEq] at h
      obtain ⟨hp, hr⟩ := h
      subst hp
      subst hr
      exact ⟨hg.1, hg.2, rfl, rfl, rfl, rfl, rfl, ho⟩

/-- C1 (amended): after any successful swap the reserve product is at most
its previous value — not at least, as claimed — with the shortfall smaller
than the sum of the committed reserves; the fee is excluded from the
reserves and the `floor(k/new)` quotient rounds in the trader's favour. -/
theorem swap_product_le (p p' : LiquidityPool) (x : Nat) (r : SwapReceipt)
    (hk : p.k = p.reserveA * p.reserveB)
    (h : p.swapAtoB x = some (p', r) ∨ p.swapBtoA x = some (p', r)) :
    p'.reserveA * p'.reserveB ≤ p.reserveA * p.reserveB ∧
    p.reserveA * p.reserveB <
      p'.reserveA * p'.reserveB + p'.reserveA + p'.reserveB := by
  rcases h with h | h
  · obtain ⟨hA, hB, hrA, hrB, _, _, _, _⟩ := swapAtoB_inv h
    have hApos : 0 < p.reserveA + (x - x * p.feeBps / 10000) := by
      have := Nat.pos_of_ne_zero hA
      omega
    have hd := Nat.div_add_mod p.k (p.reserveA + (x - x * p.feeBps / 10000))
    have hm := Nat.mod_lt p.k hApos
    rw [hrA, hrB, ← hk]
    omega
  · obtain ⟨hA, hB, hrB, hrA, _, _, _, _⟩ := swapBtoA_inv h
    have hBpos : 0 < p.reserveB + (x - x * p.feeBps / 10000) := by
      have := Nat.pos_of_ne_zero hB
      omega
    have hd := Nat.div_add_mod p.k (p.reserveB + (x - x * p.feeBps / 10000))
    have hm := Nat.mod_lt p.k hBpos
    have hcomm : p.k / (p.reserveB + (x - x * p.feeBps / 10000))
          * (p.reserveB + (x - x * p.feeBps / 10000))
        = (p.reserveB + (x - x * p.feeBps / 10000))
          * (p.k / (p.reserveB + (x - x * p.feeBps / 10000))) :=
      Nat.mul_comm _ _
    rw [hrA, hrB, ← hk]
    omega

/-- C1 counterexample: on the reachable pool `poolTen` (reserves 10/10,
`feeBps = 30 > 0`), `swapAtoB 1` succeeds with `amountIn = 1 > 0` yet the
reserve product drops from 100 to 99, refuting the claimed
`k_after ≥ k_before` (and its strict form). -/
theorem swap_product_counterexample :
    (poolTen.swapAtoB 1).map
        (fun y => (y.1.reserveA * y.1.reserveB, y.2.amountOut)) = some (99, 1)
    ∧ poolTen.reserveA * poolTen.reserveB = 100 ∧ (99 : Nat) < 100
    ∧ poolTen.feeBps = 30 ∧ (0 : Nat) < 1 :=
  ⟨rfl, rfl, by decide, rfl, by decide⟩

/-- Witness for `swap_product_le` at the concrete swap
`poolTen.swapAtoB 1 = some (poolTenC, _)`. -/
theorem swap_product_le_witness :
    poolTen.k = poolTen.reserveA * poolTen.reserveB ∧
    (poolTenC.reserveA * poolTenC.reserveB ≤ poolTen.reserveA * poolTen.reserveB ∧
     poolTen.reserveA * poolTen.reserveB <
       poolTenC.reserveA * poolTenC.reserveB + poolTenC.reserveA + poolTenC.reserveB) :=
  ⟨rfl, swap_product_le poolTen poolTenC 1 ⟨1, 1, 0⟩ rfl (Or.inl rfl)⟩

/-- Swap A→B written exactly as the spec's steps.  Modelled from the spec
(§4.1 steps 1-5, with `k = reserveA·reserveB` per §3): `fee = floor(amountIn
· feeBps / 10000)`, `afterFee = amountIn - fee`, `newA = reserveA +
afterFee`, `newB = floor(k / newA)`, `amountOut = reserveB - newB`, and the
`amountOut > 0` requirement.  Returns `(fee, newA, newB, amountOut)` on
success. -/
def specSwapAtoB (reserveA reserveB feeBps amountIn : Nat) :
    Option (Nat × Nat × Nat × Nat) :=
  let fee := amountIn * feeBps / 10000
  let afterFee := amountIn - fee
  let newA := reserveA + afterFee
  let newB := reserveA * reserveB / newA
  let amountOut := reserveB - newB
  if amountOut = 0 then none else some (fee, newA, newB, amountOut)

/-- Swap B→A written exactly as the spec's steps (the symmetric case of
`specSwapAtoB`); returns `(fee, newA, newB, amountOut)` on success. -/
def specSwapBtoA (reserveA reserveB feeBps amountIn : Nat) :
    Option (Nat × Nat × Nat × Nat) :=
  let fee := amountIn * feeBps / 10000
  let afterFee := amountIn - fee
  let newB := reserveB + afterFee
  let newA := reserveA * reserveB / newB
  let amountOut := reserveA - newA
  if amountOut = 0 then none else some (fee, newA, newB, amountOut)

/-- C3: on a pool whose stored `k` is coherent (`k = reserveA·reserveB`) and
whose reserves are both nonzero, `swapAtoB`/`swapBtoA` compute exactly the
spec's steps — same fee, same committed reserves, same `amountOut` — and
fail (returning the zero-output error, with the pool untouched in the
state-passing embedding, as the JS method throws before mutating) precisely
when the spec's `amountOut > 0` requirement fails. -/
theorem swap_follows_spec_steps (p : LiquidityPool) (x : Nat)
    (hk : p.k = p.reserveA * p.reserveB)
    (hA : p.reserveA ≠ 0) (hB : p.reserveB ≠ 0) :
    (p.swapAtoB x).map
        (fun y => (y.2.fee, y.1.reserveA, y.1.reserveB, y.2.amountOut))
      = specSwapAtoB p.reserveA p.reserveB p.feeBps x
    ∧ (p.swapBtoA x).map
        (fun y => (y.2.fee, y.1.reserveA, y.1.reserveB, y.2.amountOut))
      = specSwapBtoA p.reserveA p.reserveB p.feeBps x := by
  constructor
  · simp only [LiquidityPool.swapAtoB, specSwapAtoB, hk]
    rw [if_neg (not_or.mpr ⟨hA, hB⟩)]
    by_cases h0 : p.reserveB
        - p.reserveA * p.reserveB / (p.reserveA + (x - x * p.feeBps / 10000)) = 0
    · rw [if_pos h0, if_pos h0]
      rfl
    · rw [if_neg h0, if_neg h0]
      rfl
  · simp only [LiquidityPool.swapBtoA, specSwapBtoA, hk]
    rw [if_neg (not_or.mpr ⟨hA, hB⟩)]
    by_cases h0 : p.reserveA
        - p.reserveA * p.reserveB / (p.reserveB + (x - x * p.feeBps / 10000)) = 0
    · rw [if_pos h0, if_pos h0]
      rfl
    · rw [if_neg h0, if_neg h0]
      rfl

/-- Witness for `swap_follows_spec_steps` on `poolTen` with `amountIn = 1`:
both directions replay the spec's steps. -/
theorem swap_follows_spec_steps_witness :
    poolTen.k = poolTen.reserveA * poolTen.reserveB ∧
    ((poolTen.swapAtoB 1).map
        (fun y => (y.2.fee, y.1.reserveA, y.1.reserveB, y.2.amountOut))
      = specSwapAtoB poolTen.reserveA poolTen.reserveB poolTen.feeBps 1
     ∧ (poolTen.swapBtoA 1).map
        (fun y => (y.2.fee, y.1.reserveA, y.1.reserveB, y.2.amountOut))
      = specSwapBtoA poolTen.reserveA poolTen.reserveB poolTen.feeBps 1) :=
  ⟨rfl, swap_follows_spec_steps poolTen 1 rfl (by decide) (by decide)⟩

/-- C7 (amended): on a fresh pool (zero reserves, zero LP shares) with
`A·B ≥ 1`, `addLiquidity(A, B)` followed by `removeLiquidity` of all the
minted shares pays back exactly `(A, B)` — in particular at least
`(A-1, B-1)`.  For an already-seeded pool the claimed bound fails for
disproportionate deposits (see the counterexample). -/
theorem addRemove_roundtrip_fresh (p : LiquidityPool) (prov : String) (A B : Nat)
    (hA : p.reserveA = 0) (hB : p.reserveB = 0) (hS : p.totalLpShares = 0)
    (hAB : 1 ≤ A * B) :
    ((p.addLiquidity prov A B).1.removeLiquidity prov
        (p.addLiquidity prov A B).2).map (fun y => y.2) = some (A, B) := by
  have hs : 0 < Nat.sqrt (A * B) := Nat.sqrt_pos.mpr hAB
  have e1 : Nat.sqrt (A * B) * A / Nat.sqrt (A * B) = A :=
    Nat.mul_div_cancel_left A hs
  have e2 : Nat.sqrt (A * B) * B / Nat.sqrt (A * B) = B :=
    Nat.mul_div_cancel_left B hs
  have hguard : ¬ (p.lpHolders prov + Nat.sqrt (A * B) < Nat.sqrt (A * B)) := by
    omega
  simp [LiquidityPool.addLiquidity, LiquidityPool.removeLiquidity,
    hA, hB, hS, hguard, e1, e2]

/-- C7 counterexample: on the reachable seeded pool `poolTen` (reserves
10/10, 10 LP shares), depositing the unbalanced pair `(50, 1)` mints
`min(50·10/10, 1·10/10) = 1` share, and removing that share returns only
`(5, 1)` — far below the claimed `(50-1, 1-1)`. -/
theorem addRemove_roundtrip_counterexample :
    ((poolTen.addLiquidity ("u") 50 1).1.removeLiquidity ("u")
        (poolTen.addLiquidity ("u") 50 1).2).map (fun y => y.2) = some (5, 1)
    ∧ ¬ (50 - 1 ≤ 5) :=
  ⟨rfl, by decide⟩

/-- Witness for `addRemove_roundtrip_fresh` on the empty pool with the
deposit `(2, 2)`. -/
theorem addRemove_roundtrip_fresh_witness :
    emptyPool.reserveA = 0 ∧ emptyPool.reserveB = 0 ∧
    emptyPool.totalLpShares = 0 ∧ 1 ≤ 2 * 2 ∧
    ((emptyPool.addLiquidity ("u") 2 2).1.removeLiquidity ("u")
        (emptyPool.addLiquidity ("u") 2 2).2).map (fun y => y.2) = some (2, 2) :=
  ⟨rfl, rfl, rfl, by decide,
   addRemove_roundtrip_fresh emptyPool "u" 2 2 rfl rfl rfl (by decide)⟩

/-- C8 (amended): a successful `swapAtoB(x)` followed by `swapBtoA(out)`
returns at most `x` provided the first constant-product division is exact
(`newA ∣ k`); without that proviso the floored quotient over-credits the
trader and the round trip can return strictly more than `x` (see the
counterexample). -/
theorem swap_roundtrip_le_of_exact (p p1 p2 : LiquidityPool) (x : Nat)
    (r1 r2 : SwapReceipt)
    (hk : p.k = p.reserveA * p.reserveB)
    (hd : (p.reserveA + (x - x * p.feeBps / 10000)) ∣ p.k)
    (h1 : p.swapAtoB x = some (p1, r1))
    (h2 : p1.swapBtoA r1.amountOut = some (p2, r2)) :
    r2.amountOut ≤ x := by
  obtain ⟨hA, hB, hrA1, hrB1, hk1, hf1, hout1, hne1⟩ := swapAtoB_inv h1
  obtain ⟨hA1, hB1, hrB2, hrA2, _, _, hout2, _⟩ := swapBtoA_inv h2
  have hApos : 0 < p.reserveA := Nat.pos_of_ne_zero hA
  have hkeq : p1.k = p.k := by
    rw [hk1, hrA1, hrB1]
    exact Nat.mul_div_cancel' hd
  have hb1le : p1.reserveB ≤ p.reserveB := by
    rw [hrB1, hk]
    calc p.reserveA * p.reserveB / (p.reserveA + (x - x * p.feeBps / 10000))
        ≤ p.reserveA * p.reserveB / p.reserveA :=
          Nat.div_le_div_left (by omega) hApos
      _ = p.reserveB := Nat.mul_div_cancel_left _ hApos
  have hB2pos : 0 < p1.reserveB
      + (r1.amountOut - r1.amountOut * p1.feeBps / 10000) := by
    have := Nat.pos_of_ne_zero hB1
    omega
  have hnewB2le : p1.reserveB
      + (r1.amountOut - r1.amountOut * p1.feeBps / 10000) ≤ p.reserveB := by
    have hsub : r1.amountOut - r1.amountOut * p1.feeBps / 10000 ≤ r1.amountOut :=
      Nat.sub_le _ _
    omega
  have hge : p.reserveA ≤ p1.k
      / (p1.reserveB + (r1.amountOut - r1.amountOut * p1.feeBps / 10000)) := by
    rw [hkeq, hk]
    exact (Nat.le_div_iff_mul_le hB2pos).mpr (Nat.mul_le_mul_left _ hnewB2le)
  rw [hout2, hrA2, hrA1]
  omega

/-- C8 counterexample: on the reachable pool `poolTen` (fee 30 bps),
`swapAtoB(1)` pays out 1 unit of B, and feeding that 1 unit back through
`swapBtoA` returns 2 units of A — strictly more than the original
`x = 1`. -/
theorem swap_roundtrip_profit_counterexample :
    poolTen.swapAtoB 1 = some (poolTenC, ⟨1, 1, 0⟩)
    ∧ poolTenC.swapBtoA 1 = some (poolTenD, ⟨1, 2, 0⟩)
    ∧ ¬ ((2 : Nat) ≤ 1) :=
  ⟨rfl, rfl, by decide⟩

/-- Witness for `swap_roundtrip_le_of_exact` on `poolTen` with `x = 10`
(the division `100 / 20` is exact): the round trip returns exactly 10. -/
theorem swap_roundtrip_le_witness :
    poolTen.k = poolTen.reserveA * poolTen.reserveB ∧
    (poolTen.reserveA + (10 - 10 * poolTen.feeBps / 10000)) ∣ poolTen.k ∧
    poolTen.swapAtoB 10 = some (poolTenA, ⟨10, 5, 0⟩) ∧
    poolTenA.swapBtoA 5 = some (poolTenB, ⟨5, 10, 0⟩) ∧
    (⟨5, 10, 0⟩ : SwapReceipt).amountOut ≤ 10 :=
  ⟨rfl, by decide, rfl, rfl,
   swap_roundtrip_le_of_exact poolTen poolTenA poolTenB 10 ⟨10, 5, 0⟩ ⟨5, 10, 0⟩
     rfl (by decide) rfl rfl⟩

/-- C2 (amended): for non-negative credited amounts and non-negative
balances, `addBalance`, `lockBalance` (whose guard checks the available
amount) and `unlockBalance` all preserve `balance − locked ≥ 0`, and a
successful `subtractBalance` keeps `balance ≥ 0`; but `subtractBalance`
checks only `balance ≥ amount`, not the locked amount, so it can leave
`balance < locked` (see the counterexample). -/
theorem wallet_mutations_preserve_available (r : Option Wallet) (amount : ℚ) :
    (CrownyDB.availableNonneg r → 0 ≤ amount →
       CrownyDB.availableNonneg (CrownyDB.addBalance r amount))
    ∧ (∀ r', CrownyDB.lockBalance r amount = some r' →
       CrownyDB.availableNonneg r')
    ∧ (CrownyDB.availableNonneg r → 0 ≤ amount →
       0 ≤ (CrownyDB.getBalance r).balance →
       CrownyDB.availableNonneg (CrownyDB.unlockBalance r amount))
    ∧ (∀ r', CrownyDB.subtractBalance r amount = some r' →
       0 ≤ (CrownyDB.getBalance r').balance) := by
  refine ⟨?_, ?_, ?_, ?_⟩
  · intro hav ham
    cases r with
    | none =>
        simp only [CrownyDB.availableNonneg, CrownyDB.addBalance,
          CrownyDB.setBalance, CrownyDB.getBalance, Option.getD] at *
        linarith
    | some w =>
        simp only [CrownyDB.availableNonneg, CrownyDB.addBalance,
          CrownyDB.setBalance, CrownyDB.getBalance, Option.getD] at *
        linarith
  · intro r' h
    cases r with
    | none =>
        simp only [CrownyDB.lockBalance, CrownyDB.getBalance, Option.getD] at h
        split at h
        · exact absurd h (by simp)
        · rw [Option.some_inj] at h
          subst h
          simp [CrownyDB.availableNonneg, CrownyDB.getBalance]
    | some w =>
        simp only [CrownyDB.lockBalance, CrownyDB.getBalance, Option.getD] at h
        split at h
        · exact absurd h (by simp)
        next hg =>
          rw [Option.some_inj] at h
          subst h
          simp only [CrownyDB.availableNonneg, CrownyDB.getBalance, Option.getD]
          push_neg at hg
          linarith
  · intro hav ham hbal
    cases r with
    | none =>
        simp [CrownyDB.availableNonneg, CrownyDB.unlockBalance, CrownyDB.getBalance]
    | some w =>
        simp only [CrownyDB.availableNonneg, CrownyDB.unlockBalance,
          CrownyDB.getBalance, Option.getD] at *
        rcases le_total (w.locked - amount) 0 with hc | hc
        · rw [max_eq_left hc]
          linarith
        · rw [max_eq_right hc]
          linarith
  · intro r' h
    simp only [CrownyDB.subtractBalance] at h
    split at h
    · exact absurd h (by simp)
    next hg =>
      rw [Option.some_inj] at h
      subst h
      push_neg at hg
      cases r with
      | none =>
          simp only [CrownyDB.setBalance, CrownyDB.getBalance, Option.getD] at *
          linarith
      | some w =>
          simp only [CrownyDB.setBalance, CrownyDB.getBalance, Option.getD] at *
          linarith

/-- C2 counterexample: the reachable row (balance 10, locked 8) — obtained
by locking 8 out of 10 — admits `subtractBalance(5)` because the only guard
is `balance < amount`; the result (balance 5, locked 8) violates
`balance − locked ≥ 0`. -/
theorem subtract_below_locked_counterexample :
    CrownyDB.lockBalance (some ⟨10, 0⟩) 8 = some (some ⟨10, 8⟩)
    ∧ CrownyDB.subtractBalance (some ⟨10, 8⟩) 5 = some (some ⟨5, 8⟩)
    ∧ ¬ CrownyDB.availableNonneg (some ⟨5, 8⟩) := by
  refine ⟨by with_unfolding_all rfl, by with_unfolding_all rfl, ?_⟩
  intro hcon
  simp only [CrownyDB.availableNonneg, CrownyDB.getBalance, Option.getD] at hcon
  norm_num at hcon

/-- Witness for `wallet_mutations_preserve_available` on the row
(balance 5, locked 2) with amount 1. -/
theorem wallet_mutations_witness :
    CrownyDB.availableNonneg (CrownyDB.addBalance (some ⟨5, 2⟩) 1)
    ∧ CrownyDB.availableNonneg (some (⟨5, 3⟩ : Wallet))
    ∧ CrownyDB.availableNonneg (CrownyDB.unlockBalance (some ⟨5, 2⟩) 1)
    ∧ (0 : ℚ) ≤ (CrownyDB.getBalance (some (⟨4, 2⟩ : Wallet))).balance := by
  have h := wallet_mutations_preserve_available (some ⟨5, 2⟩) 1
  have hav : CrownyDB.availableNonneg (some (⟨5, 2⟩ : Wallet)) := by
    simp only [CrownyDB.availableNonneg, CrownyDB.getBalance, Option.getD]
    norm_num
  have h01 : (0 : ℚ) ≤ 1 := by norm_num
  have hbal : (0 : ℚ) ≤ (CrownyDB.getBalance (some (⟨5, 2⟩ : Wallet))).balance := by
    simp only [CrownyDB.getBalance, Option.getD]
    norm_num
  have hlock : CrownyDB.lockBalance (some ⟨5, 2⟩) (1 : ℚ) = some (some ⟨5, 3⟩) := by
    with_unfolding_all rfl
  have hsub : CrownyDB.subtractBalance (some ⟨5, 2⟩) (1 : ℚ) = some (some ⟨4, 2⟩) := by
    with_unfolding_all rfl
  exact ⟨h.1 hav h01, h.2.1 (some ⟨5, 3⟩) hlock, h.2.2.1 hav h01 hbal,
    h.2.2.2 (some ⟨4, 2⟩) hsub⟩

/-! ### Matching touches only orders that were open at call start -/

/-- Membership through `insertSorted`. -/
theorem mem_insertSorted (le : α → α → Bool) (a b : α) (l : List α) :
    b ∈ insertSorted le a l ↔ b = a ∨ b ∈ l := by
  induction l with
  | nil => simp [insertSorted]
  | cons c cs ih =>
      simp only [insertSorted]
      split
      · simp [List.mem_cons]
      · simp only [List.mem_cons, ih]
        tauto

/-- Membership through `sortBy`. -/
theorem mem_sortBy (le : α → α → Bool) (a : α) (l : List α) :
    a ∈ sortBy le l ↔ a ∈ l := by
  induction l with
  | nil => simp [sortBy]
  | cons c cs ih => simp [sortBy, mem_insertSorted, ih, List.mem_cons]

/-- `fillPair` leaves every index other than its two targets unchanged. -/
theorem fillPair_fst_getElem_ne (st : List Order × List MatchRec)
    (bi si j : Nat) (hb : j ≠ bi) (hs : j ≠ si) :
    (fillPair st bi si).1[j]? = st.1[j]? := by
  simp only [fillPair]
  split
  · split
    · simp only
      rw [List.getElem?_set_ne (by omega), List.getElem?_set_ne (by omega)]
    · rfl
  · rfl

/-- The inner sell loop leaves indices outside `{bi} ∪ ss` unchanged. -/
theorem foldl_fillPair_inner (ss : List Nat) (bi j : Nat)
    (st : List Order × List MatchRec) (hb : j ≠ bi) (hs : j ∉ ss) :
    (ss.foldl (fun st2 si => fillPair st2 bi si) st).1[j]? = st.1[j]? := by
  induction ss generalizing st with
  | nil => rfl
  | cons s ss ih =>
      have hs1 : j ≠ s := fun e => hs (by simp [e])
      have hs2 : j ∉ ss := fun m => hs (List.mem_cons_of_mem _ m)
      simp only [List.foldl_cons]
      rw [ih (fillPair st bi s) hs2, fillPair_fst_getElem_ne st bi s j hb hs1]

/-- The nested matching loops leave indices outside both index lists
unchanged. -/
theorem foldl_fillPair_outer (bs ss : List Nat) (j : Nat)
    (st : List Order × List MatchRec) (hb : j ∉ bs) (hs : j ∉ ss) :
    ((bs.foldl (fun st1 bi =>
        ss.foldl (fun st2 si => fillPair st2 bi si) st1) st).1)[j]? = st.1[j]? := by
  induction bs generalizing st with
  | nil => rfl
  | cons b bs ih =>
      have hb1 : j ≠ b := fun e => hb (by simp [e])
      have hb2 : j ∉ bs := fun m => hb (List.mem_cons_of_mem _ m)
      simp only [List.foldl_cons]
      rw [ih _ hb2, foldl_fillPair_inner ss b j st hb1 hs]

/-- `matchOrders` only writes to indices whose order was `open` when the
call started: any index holding a non-open order is untouched. -/
theorem matchOrders_orders_untouched (ob : OrderBook) (pid : String) (j : Nat)
    (h : ∀ o, ob.orders[j]? = some o → o.status ≠ OrderStatus.opened) :
    (ob.matchOrders pid).1.orders[j]? = ob.orders[j]? := by
  unfold OrderBook.matchOrders
  simp only
  apply foldl_fillPair_outer
  · intro hmem
    rw [mem_sortBy] at hmem
    have hpred := List.of_mem_filter hmem
    have hlt : j < ob.orders.length := List.mem_range.mp (List.mem_of_mem_filter hmem)
    simp only [isOpenSide, Bool.and_eq_true, beq_iff_eq] at hpred
    have hgd : ob.orders.getD j default = ob.orders[j] := by
      rw [List.getD_eq_getElem?_getD, List.getElem?_eq_getElem hlt]
      rfl
    exact h (ob.orders[j]) (List.getElem?_eq_getElem hlt) (by rw [← hgd]; exact hpred.2)
  · intro hmem
    rw [mem_sortBy] at hmem
    have hpred := List.of_mem_filter hmem
    have hlt : j < ob.orders.length := List.mem_range.mp (List.mem_of_mem_filter hmem)
    simp only [isOpenSide, Bool.and_eq_true, beq_iff_eq] at hpred
    have hgd : ob.orders.getD j default = ob.orders[j] := by
      rw [List.getD_eq_getElem?_getD, List.getElem?_eq_getElem hlt]
      rfl
    exact h (ob.orders[j]) (List.getElem?_eq_getElem hlt) (by rw [← hgd]; exact hpred.2)

/-- C10: `OrderBook.match` selects only orders whose status is exactly
'open' at call start, so an order left 'partial' by an earlier match call is
never filled further by any later match call — it is untouched even with
positive remaining amount and a crossing price. -/
theorem match_skips_partialFill (ob : OrderBook) (pid : String) (j : Nat)
    (o : Order) (hj : ob.orders[j]? = some o)
    (hst : o.status = OrderStatus.partialFill) :
    (ob.matchOrders pid).1.orders[j]? = some o := by
  rw [matchOrders_orders_untouched ob pid j, hj]
  intro o' ho'
  rw [hj, Option.some_inj] at ho'
  subst ho'
  rw [hst]
  intro hcon
  cases hcon

/-- A book holding a partially filled buy (remaining 3) and a crossing open
sell. -/
def bookPartial : OrderBook :=
  ⟨[⟨0, "a", "P", Side.buy, 10, 5, 2, OrderStatus.partialFill⟩,
    ⟨1, "b", "P", Side.sell, 9, 5, 0, OrderStatus.opened⟩], 2⟩

/-- Witness for `match_skips_partialFill`: matching `bookPartial` leaves the partial
order untouched despite its positive remainder and the crossing sell. -/
theorem match_skips_partialFill_witness :
    bookPartial.orders[0]? =
      some ⟨0, "a", "P", Side.buy, 10, 5, 2, OrderStatus.partialFill⟩
    ∧ (bookPartial.matchOrders ("P")).1.orders[0]? =
      some ⟨0, "a", "P", Side.buy, 10, 5, 2, OrderStatus.partialFill⟩ :=
  ⟨rfl, match_skips_partialFill bookPartial "P" 0 _ rfl rfl⟩

/-- C9 (amended): matching advances only orders that are open at call start
(partial, filled and cancelled orders are untouched by `match`), and
`cancel` sets the status of any present order — including an already
`filled` or `cancelled` one — to `cancelled`; so `cancelled` absorbs but
`filled` is not terminal under `cancel`. -/
theorem match_frozen_nonopen_cancel_unguarded (ob : OrderBook) (pid : String)
    (j : Nat) (o : Order) (oid i : Nat) :
    (ob.orders[j]? = some o → o.status ≠ OrderStatus.opened →
       (ob.matchOrders pid).1.orders[j]? = some o)
    ∧ (ob.orders.findIdx? (fun x => x.id == oid) = some i →
       ((ob.cancel oid).orders[i]?).map Order.status = some OrderStatus.cancelled) := by
  constructor
  · intro hj hst
    rw [matchOrders_orders_untouched ob pid j, hj]
    intro o' ho'
    rw [hj, Option.some_inj] at ho'
    subst ho'
    exact hst
  · intro hfind
    unfold OrderBook.cancel
    rw [hfind]
    simp only
    have hlt : i < ob.orders.length :=
      (List.findIdx?_eq_some_iff_findIdx_eq.mp hfind).1
    rw [List.getElem?_set_self']
    simp [List.getElem?_eq_getElem hlt]

/-- C9 counterexample: two crossing open orders fully match (the buy becomes
'filled'), after which `cancel` still flips the filled order to 'cancelled'
— 'filled' is not terminal, refuting the claim. -/
theorem cancel_filled_counterexample :
    ((OrderBook.matchOrders ⟨[⟨0, "a", "P", Side.buy, 10, 5, 0, OrderStatus.opened⟩,
        ⟨1, "b", "P", Side.sell, 10, 5, 0, OrderStatus.opened⟩], 2⟩
        ("P")).1.orders[0]?).map Order.status = some OrderStatus.filled
    ∧ (((OrderBook.matchOrders ⟨[⟨0, "a", "P", Side.buy, 10, 5, 0, OrderStatus.opened⟩,
        ⟨1, "b", "P", Side.sell, 10, 5, 0, OrderStatus.opened⟩], 2⟩
        ("P")).1.cancel 0).orders[0]?).map Order.status = some OrderStatus.cancelled := by
  constructor
  · with_unfolding_all rfl
  · with_unfolding_all rfl

/-- Witness for `match_frozen_nonopen_cancel_unguarded` on `bookPartial`:
the partial order survives a match, and cancelling order 1 sets it
cancelled. -/
theorem match_cancel_witness :
    (bookPartial.matchOrders ("P")).1.orders[0]? =
      some ⟨0, "a", "P", Side.buy, 10, 5, 2, OrderStatus.partialFill⟩
    ∧ ((bookPartial.cancel 1).orders[1]?).map Order.status =
      some OrderStatus.cancelled :=
  ⟨(match_frozen_nonopen_cancel_unguarded bookPartial "P" 0 _ 1 1).1 rfl (by decide),
   (match_frozen_nonopen_cancel_unguarded bookPartial "P" 0
      ⟨0, "a", "P", Side.buy, 10, 5, 2, OrderStatus.partialFill⟩ 1 1).2 rfl⟩

/-- C4: whenever the safety gate trips for the `(principal, venue)` config —
daily cap reached, consecutive-loss cap reached, or `qty·(price ?? 1)`
over the wallet total exceeding `maxPositionPct` (with positive total) —
`executeOrder` raises the safety-block error first and persists nothing: the
`exchange_orders` table is returned unchanged and no pending `VenueOrder`
row is created.  (For `price = 0` the code's `price || 1` gate is at least
as strict as the claim's `price ?? 1` gate, given `qty ≥ 0`.) -/
theorem executeOrder_safety_gate (orders : List VenueOrder)
    (c : AutoTradeConfig) (balances : List ℚ)
    (userId exchange symbol side kind source : String)
    (quantity : ℚ) (price : Option ℚ) (hq : 0 ≤ quantity)
    (hgate : c.max_daily_trades ≤ c.daily_trades_used
      ∨ c.max_consecutive_losses ≤ c.consecutive_losses
      ∨ (0 < balances.foldl (· + ·) 0
         ∧ c.max_position_pct
             < quantity * (price.getD 1) / balances.foldl (· + ·) 0)) :
    TradeExecutor.executeOrder orders (some c) balances userId exchange symbol
        side kind quantity price source
      = (orders, some (TradeExecutor.checkSafety (some c) balances quantity price))
    ∧ TradeExecutor.checkSafety (some c) balances quantity price ≠ [] := by
  have hne : TradeExecutor.checkSafety (some c) balances quantity price ≠ [] := by
    simp only [TradeExecutor.checkSafety]
    rcases hgate with h1 | h2 | ⟨ht, h3⟩
    · rw [if_pos h1]
      simp [List.append_eq_nil]
    · rw [if_pos h2]
      simp [List.append_eq_nil]
    · have h3' : c.max_position_pct
          < quantity * jsOr1 price / balances.foldl (· + ·) 0 := by
        cases price with
        | none => simpa [jsOr1] using h3
        | some p =>
            by_cases hp : p = 0
            · subst hp
              simp only [Option.getD_some] at h3
              have hz : quantity * (0 : ℚ) / balances.foldl (· + ·) 0 = 0 := by
                simp
              rw [hz] at h3
              have hone : jsOr1 (some 0) = 1 := by norm_num [jsOr1]
              rw [hone]
              have hnn : 0 ≤ quantity * (1 : ℚ)
                  / balances.foldl (· + ·) 0 :=
                div_nonneg (by linarith) (le_of_lt ht)
              linarith
            · simpa [jsOr1, hp] using h3
      have hcode := And.intro ht h3'
      rw [if_pos hcode]
      simp [List.append_eq_nil]
  refine ⟨?_, hne⟩
  unfold TradeExecutor.executeOrder
  rw [if_neg (by simp [List.isEmpty_iff, hne])]

/-- Witness for `executeOrder_safety_gate`: the spec's scenario 5 config
(`consecutiveLosses = 3 = maxConsecutiveLosses`) blocks an otherwise valid
order and no row is written. -/
theorem executeOrder_safety_gate_witness :
    TradeExecutor.executeOrder [] (some ⟨0, 10, 3, 3, 1/10⟩) [100]
        ("alice") ("binance") ("BTCUSDT") ("buy") ("market") 1 (some 100) ("auto")
      = ([], some (TradeExecutor.checkSafety (some ⟨0, 10, 3, 3, 1/10⟩) [100] 1 (some 100)))
    ∧ TradeExecutor.checkSafety (some ⟨0, 10, 3, 3, 1/10⟩) [100] 1 (some 100) ≠ [] :=
  executeOrder_safety_gate [] ⟨0, 10, 3, 3, 1/10⟩ [100]
    ("alice") ("binance") ("BTCUSDT") ("buy") ("market") ("auto") 1 (some 100)
    (by norm_num) (Or.inr (Or.inl (by norm_num)))

/-- The spec's `weightedSum = Σ signal·weight·confidence` over the
strategies with positive confidence.  Modelled from the spec (§4.4 steps
1-2) for comparison with the accumulation loop inside `analyze`. -/
def specWeightedSum (results : List StratResult) : ℚ :=
  ((results.filter (fun r => decide (0 < r.confidence))).map
    (fun r => (r.signal : ℚ) * r.weight * r.confidence)).sum

/-- The spec's `totalWeight = Σ weight·confidence` over the strategies with
positive confidence (spec §4.4 step 2). -/
def specTotalWeight (results : List StratResult) : ℚ :=
  ((results.filter (fun r => decide (0 < r.confidence))).map
    (fun r => r.weight * r.confidence)).sum

/-- Sum of the contributing confidences (the third accumulator of the
loop). -/
def specConfidenceSum (results : List StratResult) : ℚ :=
  ((results.filter (fun r => decide (0 < r.confidence))).map
    (fun r => r.confidence)).sum

/-- The vote accumulation loop of `analyze` computes exactly the three
spec sums. -/
theorem voteFold_eq (results : List StratResult) (a b c : ℚ) :
    results.foldl
      (fun (acc : ℚ × ℚ × ℚ) r =>
        if 0 < r.confidence then
          (acc.1 + r.signal * r.weight * r.confidence,
           acc.2.1 + r.weight * r.confidence,
           acc.2.2 + r.confidence)
        else acc)
      (a, b, c)
    = (a + specWeightedSum results, b + specTotalWeight results,
       c + specConfidenceSum results) := by
  induction results generalizing a b c with
  | nil => simp [specWeightedSum, specTotalWeight, specConfidenceSum]
  | cons r rs ih =>
      by_cases hr : 0 < r.confidence
      · have hfc : List.filter (fun r => decide (0 < r.confidence)) (r :: rs)
            = r :: List.filter (fun r => decide (0 < r.confidence)) rs := by
          simp [List.filter_cons, hr]
        rw [List.foldl_cons, if_pos hr, ih]
        simp only [specWeightedSum, specTotalWeight, specConfidenceSum, hfc,
          List.map_cons, List.sum_cons, Prod.mk.injEq]
        refine ⟨by ring, by ring, by ring⟩
      · have hfc : List.filter (fun r => decide (0 < r.confidence)) (r :: rs)
            = List.filter (fun r => decide (0 < r.confidence)) rs := by
          simp [List.filter_cons, hr]
        rw [List.foldl_cons, if_neg hr, ih]
        simp only [specWeightedSum, specTotalWeight, specConfidenceSum, hfc]

/-- `analyze`'s score is the spec's `weightedSum / totalWeight` (0 with no
contributors) whenever the series is long enough. -/
theorem analyze_score_formula (n : Nat) (results : List StratResult)
    (symbol : String) (lastClose balance : ℚ) (rm : RiskManager)
    (hn : 50 ≤ n) :
    (TradingAI.analyze n results symbol lastClose balance rm).score
      = (if 0 < specTotalWeight results
         then specWeightedSum results / specTotalWeight results else 0) := by
  have h50 : ¬ n < 50 := by omega
  simp only [TradingAI.analyze, if_neg h50]
  rw [voteFold_eq]
  simp

/-- The default-constructed risk manager with the default balance passes the
risk check with no stop or take flags. -/
theorem checkRisk_init (symbol : String) (price : ℚ) :
    (RiskManager.init.checkRisk symbol price 100000).2.allowed = true
    ∧ (RiskManager.init.checkRisk symbol price 100000).2.risks = [] := by
  have h1 : ¬ (RiskManager.init.maxDailyTrades ≤ RiskManager.init.dailyTrades) := by
    simp [RiskManager.init]
  have h2 : RiskManager.init.peakBalance < (100000 : ℚ) := by
    simp only [RiskManager.init]
    norm_num
  constructor <;>
    simp [RiskManager.checkRisk, RiskManager.init, h2] <;> norm_num

/-- With the default risk manager and balance, `analyze` decides purely by
the ±0.3 thresholds on the score (no risk override fires). -/
theorem analyze_decision_thresholds (n : Nat) (results : List StratResult)
    (symbol : String) (lastClose : ℚ) (hn : 50 ≤ n) :
    (TradingAI.analyze n results symbol lastClose 100000 RiskManager.init).decision
      = (if (3 : ℚ)/10
            < (TradingAI.analyze n results symbol lastClose 100000 RiskManager.init).score
         then Decision.buy
         else if (TradingAI.analyze n results symbol lastClose 100000 RiskManager.init).score
            < -((3 : ℚ)/10)
         then Decision.sell
         else Decision.hold) := by
  have h50 : ¬ n < 50 := by omega
  obtain ⟨hal, hrk⟩ := checkRisk_init symbol lastClose
  simp only [TradingAI.analyze, if_neg h50]
  simp [hal, hrk]

/-- All six strategies emitting (+1, confidence 1), with the source weights
RSI 1.5, MACD 1.3, Bollinger 1.2, Volume 0.8, Trend 1.0, Stochastic 0.7
(trading-ai.js:131,149,172,189,206,232). -/
def sixBuy : List StratResult :=
  [⟨1, 3/2, 1⟩, ⟨1, 13/10, 1⟩, ⟨1, 6/5, 1⟩, ⟨1, 4/5, 1⟩, ⟨1, 1, 1⟩, ⟨1, 7/10, 1⟩]

/-- All six strategies emitting (-1, confidence 1). -/
def sixSell : List StratResult :=
  [⟨-1, 3/2, 1⟩, ⟨-1, 13/10, 1⟩, ⟨-1, 6/5, 1⟩, ⟨-1, 4/5, 1⟩, ⟨-1, 1, 1⟩, ⟨-1, 7/10, 1⟩]

/-- Positive-confidence emissions all pass the contribution filter. -/
theorem filter_replicate_keep (k : Nat) (r : StratResult) (hr : 0 < r.confidence) :
    List.filter (fun s => decide (0 < s.confidence)) (List.replicate k r)
      = List.replicate k r := by
  rw [List.filter_eq_self]
  intro a ha
  rw [List.eq_of_mem_replicate ha]
  exact decide_eq_true hr

/-- C5: for series of at least 50 candles the consensus is the spec's
weighted vote — `score = weightedSum/totalWeight` over the positive-
confidence emissions (0 with no contributors) and, under the default risk
state, the decision is BUY iff `score > 0.3`, SELL iff `score < -0.3`,
HOLD otherwise; consequently six unanimous (+1, 1) emissions give score 1
and BUY, six (-1, 1) give SELL, and an even ±1 split at equal weight and
confidence gives |score| < 0.3 and HOLD. -/
theorem analyze_consensus (symbol : String) (lastClose : ℚ) :
    (∀ (n : Nat) (results : List StratResult) (balance : ℚ) (rm : RiskManager),
        50 ≤ n →
        (TradingAI.analyze n results symbol lastClose balance rm).score
          = (if 0 < specTotalWeight results
             then specWeightedSum results / specTotalWeight results else 0))
    ∧ (∀ (n : Nat) (results : List StratResult), 50 ≤ n →
        (TradingAI.analyze n results symbol lastClose 100000 RiskManager.init).decision
          = (if (3 : ℚ)/10
                < (TradingAI.analyze n results symbol lastClose 100000 RiskManager.init).score
             then Decision.buy
             else if (TradingAI.analyze n results symbol lastClose 100000 RiskManager.init).score
                < -((3 : ℚ)/10)
             then Decision.sell
             else Decision.hold))
    ∧ TradingAI.analyze 50 sixBuy symbol lastClose 100000 RiskManager.init
        = ⟨Decision.buy, 1, 1, true⟩
    ∧ TradingAI.analyze 50 sixSell symbol lastClose 100000 RiskManager.init
        = ⟨Decision.sell, -1, 1, true⟩
    ∧ (∀ (k : Nat) (w conf : ℚ), 0 < k → 0 < w → 0 < conf →
        |(TradingAI.analyze 50
            (List.replicate k ⟨1, w, conf⟩ ++ List.replicate k ⟨-1, w, conf⟩)
            symbol lastClose 100000 RiskManager.init).score| < 3/10
        ∧ (TradingAI.analyze 50
            (List.replicate k ⟨1, w, conf⟩ ++ List.replicate k ⟨-1, w, conf⟩)
            symbol lastClose 100000 RiskManager.init).decision = Decision.hold) := by
  refine ⟨fun n results balance rm hn =>
            analyze_score_formula n results symbol lastClose balance rm hn,
          fun n results hn =>
            analyze_decision_thresholds n results symbol lastClose hn,
          by with_unfolding_all rfl,
          by with_unfolding_all rfl,
          ?_⟩
  intro k w conf hk hw hc
  have hk' : (0 : ℚ) < (k : ℚ) := by exact_mod_cast hk
  have hzero : specWeightedSum
      (List.replicate k ⟨1, w, conf⟩ ++ List.replicate k ⟨-1, w, conf⟩) = 0 := by
    rw [specWeightedSum, List.filter_append,
      filter_replicate_keep k ⟨1, w, conf⟩ hc,
      filter_replicate_keep k ⟨-1, w, conf⟩ hc,
      List.map_append, List.sum_append, List.map_replicate, List.map_replicate,
      List.sum_replicate, List.sum_replicate, nsmul_eq_mul, nsmul_eq_mul]
    push_cast
    ring
  have htw : specTotalWeight
      (List.replicate k ⟨1, w, conf⟩ ++ List.replicate k ⟨-1, w, conf⟩)
      = 2 * (k : ℚ) * (w * conf) := by
    rw [specTotalWeight, List.filter_append,
      filter_replicate_keep k ⟨1, w, conf⟩ hc,
      filter_replicate_keep k ⟨-1, w, conf⟩ hc,
      List.map_append, List.sum_append, List.map_replicate, List.map_replicate]
    simp only [List.sum_replicate, nsmul_eq_mul]
    ring
  have hpos : 0 < specTotalWeight
      (List.replicate k ⟨1, w, conf⟩ ++ List.replicate k ⟨-1, w, conf⟩) := by
    rw [htw]
    exact mul_pos (mul_pos two_pos hk') (mul_pos hw hc)
  have hsc : (TradingAI.analyze 50
      (List.replicate k ⟨1, w, conf⟩ ++ List.replicate k ⟨-1, w, conf⟩)
      symbol lastClose 100000 RiskManager.init).score = 0 := by
    rw [analyze_score_formula 50 _ symbol lastClose 100000 RiskManager.init
        (le_refl 50), if_pos hpos, hzero, zero_div]
  refine ⟨?_, ?_⟩
  · rw [hsc]
    norm_num
  · rw [analyze_decision_thresholds 50 _ symbol lastClose (le_refl 50), hsc]
    norm_num

/-- Witness for `analyze_consensus`: an even ±1 split (one of each) at
weight 1 and confidence 1 decides HOLD. -/
theorem analyze_consensus_witness :
    (0 : Nat) < 1 ∧ (0 : ℚ) < 1 ∧
    (TradingAI.analyze 50
        (List.replicate 1 ⟨1, 1, 1⟩ ++ List.replicate 1 ⟨-1, 1, 1⟩)
        ("BTCUSDT") 100 100000 RiskManager.init).decision = Decision.hold := by
  have h := (analyze_consensus ("BTCUSDT") 100).2.2.2.2 1 1 1
    (by decide) (by norm_num) (by norm_num)
  exact ⟨by decide, by norm_num, h.2⟩

/-- Inside one window (no call time past `resetAt`), the bucket admits the
call with index `i` (0-based, counting from a bucket already at `c`) iff
`c + i + 1 ≤ RATE_LIMIT`. -/
theorem runCalls_within_window (ts : List Int) (c : Nat) (R : Int)
    (h : ∀ t ∈ ts, t ≤ R) :
    (MetaKernelGateway.runCalls (some ⟨c, R⟩) ts).1
      = (List.range ts.length).map (fun i => decide (c + i + 1 ≤ RATE_LIMIT)) := by
  induction ts generalizing c with
  | nil => rfl
  | cons t ts ih =>
      have hle : ¬ ((⟨c, R⟩ : RateLimitEntry).resetAt < t) := by
        show ¬ (R < t)
        have := h t (List.mem_cons_self _ _)
        omega
      simp only [MetaKernelGateway.runCalls, MetaKernelGateway.checkRateLimit,
        if_neg hle]
      rw [ih (c + 1) (fun t ht => h t (List.mem_cons_of_mem _ ht))]
      rw [List.length_cons, List.range_succ_eq_map]
      simp only [List.map_cons, List.map_map]
      congr 1
      apply List.map_congr_left
      intro i _
      simp only [Function.comp_apply]
      exact decide_eq_decide.mpr (by omega)

/-- C6: starting from an empty bucket, calls all arriving within the
60-second window opened by the first call are admitted exactly while the
running count stays at or below 100 — the first 100 pass, the 101st and
every later call in the window is refused and raises the RATE_LIMITED error
at the `route` gate — and any call arriving strictly after `resetAt` resets the
bucket to count 1 and is admitted. -/
theorem rate_limit_window (t0 : Int) (ts : List Int) (e : RateLimitEntry)
    (now : Int) (st : Option RateLimitEntry)
    (hin : ∀ t ∈ ts, t ≤ t0 + RATE_WINDOW) (hexp : e.resetAt < now) :
    (MetaKernelGateway.runCalls none (t0 :: ts)).1
      = (List.range (ts.length + 1)).map (fun i => decide (i < RATE_LIMIT))
    ∧ MetaKernelGateway.checkRateLimit now (some e)
        = (true, ⟨1, now + RATE_WINDOW⟩)
    ∧ (MetaKernelGateway.routeRateGate now st = Except.error "RATE_LIMITED"
       ↔ (MetaKernelGateway.checkRateLimit now st).1 = false) := by
  refine ⟨?_, ?_, ?_⟩
  · simp only [MetaKernelGateway.runCalls, MetaKernelGateway.checkRateLimit]
    rw [runCalls_within_window ts 1 (t0 + RATE_WINDOW) hin]
    rw [List.range_succ_eq_map]
    simp only [List.map_cons, List.map_map]
    congr 1
    apply List.map_congr_left
    intro i _
    simp only [Function.comp_apply]
    exact decide_eq_decide.mpr (by omega)
  · simp only [MetaKernelGateway.checkRateLimit, if_pos hexp]
    rfl
  · simp only [MetaKernelGateway.routeRateGate]
    cases hb : (MetaKernelGateway.checkRateLimit now st).1 with
    | false => simp [hb]
    | true => simp [hb]

/-- Witness for `rate_limit_window`: three calls inside one window are all
admitted; a bucket past its reset instant readmits with count 1. -/
theorem rate_limit_window_witness :
    (MetaKernelGateway.runCalls none ((0 : Int) :: [1, 2])).1
      = (List.range (([1, 2] : List Int).length + 1)).map
          (fun i => decide (i < RATE_LIMIT))
    ∧ MetaKernelGateway.checkRateLimit 70000 (some ⟨100, 5⟩)
        = (true, ⟨1, 70000 + RATE_WINDOW⟩)
    ∧ (MetaKernelGateway.routeRateGate 70000 none = Except.error "RATE_LIMITED"
       ↔ (MetaKernelGateway.checkRateLimit 70000 none).1 = false) :=
  rate_limit_window 0 [1, 2] ⟨100, 5⟩ 70000 none (by decide) (by decide)
